import Mathlib

/-!
Shallow embedding of the Sales & Cash-Drawer Reconciliation Engine of the
Cantina point-of-sale application.  Monetary amounts (JS numbers used as
decimals) are modelled as rationals, integer counters (stock, quantity) as
`Int`, and instants (JS `Date`, i.e. an epoch offset) as `Int` seconds since
the Unix epoch.  The local time zone of the JS environment is an explicit
`tz : Int` offset in seconds.  Handlers that read the current clock take the
instant `now` as an explicit argument.  The `historicalReports` record
(a JS object keyed by day strings) is modelled as `String → Option _`.
-/

/-- Payment methods, from `types.ts` (`enum PaymentMethod`). -/
inductive PaymentMethod where
  | Cash
  | Pix
deriving DecidableEq, Repr

/-- Discount kinds, from the `'percentage' | 'fixed'` union in `types.ts`. -/
inductive DiscountType where
  | percentage
  | fixed
deriving DecidableEq, Repr

/-- Product categories, from `types.ts`. -/
inductive Category where
  | Alimentos
  | Loja
deriving DecidableEq, Repr

/-- `Product` from `types.ts`. -/
structure Product where
  id : String
  name : String
  stock : Int
  price : ℚ
  category : Category
deriving DecidableEq, Repr

/-- `SaleItem` from `types.ts`. -/
structure SaleItem where
  productId : String
  productName : String
  quantity : Int
  pricePerItem : ℚ
deriving DecidableEq, Repr

/-- `Sale` from `types.ts`; `timestamp` is epoch seconds. -/
structure Sale where
  id : String
  items : List SaleItem
  subtotal : ℚ
  discountType : Option DiscountType
  discountValue : Option ℚ
  discountAmount : ℚ
  total : ℚ
  paymentMethod : PaymentMethod
  timestamp : Int
deriving DecidableEq, Repr

/-- `CashDrawer` from `types.ts`. -/
structure CashDrawer where
  isOpen : Bool
  openingCash : ℚ
  previousClosingCash : ℚ
deriving DecidableEq, Repr

/-- `Withdrawal` from `types.ts`. -/
structure Withdrawal where
  id : String
  amount : ℚ
  reason : String
  timestamp : Int
deriving DecidableEq, Repr

/-- `HistoricalReport` from `types.ts`. -/
structure HistoricalReport where
  openingCash : ℚ
  closingCash : ℚ
  date : String
  withdrawals : List Withdrawal
deriving DecidableEq, Repr

/-- The `historicalReports` app state: a JS object keyed by day strings. -/
def Reports : Type := String → Option HistoricalReport

/-! ### Day keys

`localDayKey` in `App.tsx` reads `getFullYear`/`getMonth`/`getDate`, the
LOCAL calendar fields of a JS `Date`, and renders them as `y-mm-dd` with
`padStart(2, '0')` on month and day.  A JS `Date` is an epoch instant; its
local calendar fields are the proleptic Gregorian civil date of the instant
shifted by the environment's zone offset.  `civilFromDays` is that standard
civil-from-days calculation (days since 1970-01-01 to year/month/day). -/

/-- Civil (proleptic Gregorian) date of a day count since 1970-01-01. -/
def civilFromDays (z0 : Int) : Int × Nat × Nat :=
  let z := z0 + 719468
  let era := Int.fdiv z 146097
  let doe : Nat := (z - era * 146097).toNat
  let yoe : Nat := (doe - doe / 1460 + doe / 36524 - doe / 146096) / 365
  let y : Int := (yoe : Int) + era * 400
  let doy : Nat := doe - (365 * yoe + yoe / 4 - yoe / 100)
  let mp : Nat := (5 * doy + 2) / 153
  let d : Nat := doy - (153 * mp + 2) / 5 + 1
  let m : Nat := if mp < 10 then mp + 3 else mp - 9
  (if m ≤ 2 then y + 1 else y, m, d)

/-- `String(n).padStart(2, '0')`. -/
def pad2 (n : Nat) : String :=
  if n < 10 then "0" ++ toString n else toString n

/-- Render a day count as the `y-mm-dd` key string of its civil date. -/
def dayKeyOfDay (day : Int) : String :=
  let c := civilFromDays day
  toString c.1 ++ "-" ++ pad2 c.2.1 ++ "-" ++ pad2 c.2.2

/-- `localDayKey` (App.tsx): the key of the LOCAL calendar date of instant
`t`, for zone offset `tz` seconds. -/
def localDayKey (tz t : Int) : String :=
  dayKeyOfDay (Int.fdiv (t + tz) 86400)

/-- The UTC day-key computation used by `PreviousReport.tsx`
(`new Date(...).toISOString().split('T')[0]`): the key of the UTC calendar
date of instant `t`. -/
def utcDayKey (t : Int) : String :=
  dayKeyOfDay (Int.fdiv t 86400)

example : localDayKey 0 0 = "1970-01-01" := by decide
example : utcDayKey (19724 * 86400 + 9000) = "2024-01-02" := by decide
example : localDayKey (-10800) (19724 * 86400 + 9000) = "2024-01-01" := by decide

/-! ### Engine handlers (App.tsx, `src/unnamed/part_000`) -/

/-- The `discount` argument of `handleAddSale`:
`{ type: 'percentage' | 'fixed'; value?: number }`. -/
structure DiscountSpec where
  type : DiscountType
  value : Option ℚ
deriving DecidableEq, Repr

/-- `const subtotal = cartItems.reduce((acc, it) => acc + it.pricePerItem *
it.quantity, 0)` (App.tsx line 154). -/
def subtotalOf (cartItems : List SaleItem) : ℚ :=
  cartItems.foldl (fun acc it => acc + it.pricePerItem * (it.quantity : ℚ)) 0

/-- The discount amount before the clamp (App.tsx lines 155-160): 0 unless
`discount.value` is present and positive; `subtotal × value / 100` for a
percentage discount, `value` for a fixed one. -/
def rawDiscountAmount (subtotal : ℚ) (discount : DiscountSpec) : ℚ :=
  match discount.value with
  | some v =>
      if 0 < v then
        if discount.type = DiscountType.percentage then subtotal * v / 100 else v
      else 0
  | none => 0

/-- `discountType: discount.value ? discount.type : undefined`
(App.tsx line 168): present only when `discount.value` is truthy. -/
def saleDiscountType (discount : DiscountSpec) : Option DiscountType :=
  match discount.value with
  | some v => if v ≠ 0 then some discount.type else none
  | none => none

/-- The `newSale` record built by `handleAddSale` (App.tsx lines 154-174):
`discountAmount = Math.min(subtotal, rawDiscountAmount)` (line 161, the
clamp applies to BOTH discount kinds), `total = subtotal − discountAmount`,
id `sale-<now>`. -/
def newSaleOf (cartItems : List SaleItem) (paymentMethod : PaymentMethod)
    (discount : DiscountSpec) (now : Int) : Sale :=
  let subtotal := subtotalOf cartItems
  let discountAmount := min subtotal (rawDiscountAmount subtotal discount)
  { id := "sale-" ++ toString now
    items := cartItems
    subtotal := subtotal
    discountType := saleDiscountType discount
    discountValue := discount.value
    discountAmount := discountAmount
    total := subtotal - discountAmount
    paymentMethod := paymentMethod
    timestamp := now }

/-- The stock update inside `handleAddSale` (App.tsx lines 177-181, the
spec's `applyStockDeduction`): each product whose id some cart item
references gets `stock = max(0, stock − quantity)` from the first such
item; missing products are silently skipped. -/
def applyStockDeduction (products : List Product) (cartItems : List SaleItem) :
    List Product :=
  products.map fun p =>
    match cartItems.find? (fun ci => ci.productId = p.id) with
    | none => p
    | some item => { p with stock := max 0 (p.stock - item.quantity) }

/-- `handleAddSale` (App.tsx lines 147-195): commit a cart as a `Sale` and
deduct stock.  Returns `none` on an empty cart (`if (!cartItems.length)
return;`), otherwise the committed sale together with the updated product
list.  `now` is the current instant (used for the id and the timestamp);
remote persistence is fire-and-forget and not part of the local transition. -/
def handleAddSale (products : List Product) (cartItems : List SaleItem)
    (paymentMethod : PaymentMethod) (discount : DiscountSpec) (now : Int) :
    Option (Sale × List Product) :=
  if cartItems = [] then none
  else some (newSaleOf cartItems paymentMethod discount now,
             applyStockDeduction products cartItems)

/-- The call `onAddSale(cart, paymentMethod, discountValue ? {...} :
undefined)` from `SalesScreen.handleFinalizeSale`: when no discount value was
entered the third argument is `undefined` (`none` here), and `handleAddSale`
then evaluates `discount.value` on `undefined` AFTER the empty-cart guard,
which throws a TypeError (`Except.error ()`). -/
def runAddSale (products : List Product) (cartItems : List SaleItem)
    (paymentMethod : PaymentMethod) (discount : Option DiscountSpec) (now : Int) :
    Except Unit (Option (Sale × List Product)) :=
  if cartItems = [] then Except.ok none
  else
    match discount with
    | none => Except.error ()
    | some d => Except.ok (handleAddSale products cartItems paymentMethod d now)

/-- `handleStartDay` (App.tsx lines 197-208): unconditionally opens the
drawer with the given opening amount, keeping `previousClosingCash`. -/
def handleStartDay (drawer : CashDrawer) (openingAmount : ℚ) : CashDrawer :=
  { drawer with isOpen := true, openingCash := openingAmount }

/-- `handleEndDay` (App.tsx lines 210-241): filters the sales whose local
day key is today's, sums the totals of the Cash-method ones, stores a
`HistoricalReport` for today's key (keeping any withdrawals already attached
to that day), and closes the drawer, seeding `previousClosingCash` with the
computed closing cash.  Runs unconditionally, whatever `drawer.isOpen` is. -/
def handleEndDay (tz now : Int) (drawer : CashDrawer) (sales : List Sale)
    (reports : Reports) : CashDrawer × Reports :=
  let todayStr := localDayKey tz now
  let todaySales := sales.filter fun s => localDayKey tz s.timestamp = todayStr
  let totalCashSales :=
    (todaySales.filter fun s => s.paymentMethod = PaymentMethod.Cash).foldl
      (fun acc s => acc + s.total) 0
  let closingCash := drawer.openingCash + totalCashSales
  let newReport : HistoricalReport :=
    { openingCash := drawer.openingCash
      closingCash := closingCash
      date := todayStr
      withdrawals :=
        match reports todayStr with
        | some r => r.withdrawals
        | none => [] }
  (⟨false, 0, closingCash⟩,
   fun k => if k = todayStr then some newReport else reports k)

/-- `handleAddWithdrawal` (App.tsx lines 243-273): appends a withdrawal
(with id `wd-<now>` and timestamp `now`) to the given day's report,
creating a zeroed stub report when the day has none.  No validation. -/
def handleAddWithdrawal (reports : Reports) (date : String) (amount : ℚ)
    (reason : String) (now : Int) : Reports :=
  let report : HistoricalReport :=
    match reports date with
    | some r => r
    | none => { openingCash := 0, closingCash := 0, date := date, withdrawals := [] }
  let newWithdrawal : Withdrawal :=
    { id := "wd-" ++ toString now, amount := amount, reason := reason, timestamp := now }
  fun k =>
    if k = date then some { report with withdrawals := report.withdrawals ++ [newWithdrawal] }
    else reports k

/-! ### UI-side operations cited by the claims -/

/-- `WithdrawalModal.handleConfirm` (lines 26-41): parses the amount
(`none` models `NaN`), rejects a non-positive amount, an amount above
`maxAmount`, or a blank reason, and otherwise passes `(amount,
reason.trim())` to `onConfirm`.  `none` as a result means an error message
was shown and `onConfirm` was never called (no state change). -/
def handleConfirm (amount : Option ℚ) (reason : String) (maxAmount : ℚ) :
    Option (ℚ × String) :=
  match amount with
  | none => none
  | some a =>
      if a ≤ 0 then none
      else if maxAmount < a then none
      else if reason.trim = "" then none
      else some (a, reason.trim)

/-- The `maxAmount` that `PreviousReport.tsx` (line 190) passes to the
withdrawal modal: `reportData ? reportData.openingCash + stats.cashSales -
stats.totalWithdrawals : 0`, where `stats.cashSales` sums the Cash-method
sales of the selected date (selected by UTC day key, line 42) and
`stats.totalWithdrawals` sums the report's withdrawals. -/
def maxAmountFor (reports : Reports) (allSales : List Sale) (date : String) : ℚ :=
  match reports date with
  | none => 0
  | some r =>
      let salesForSelectedDate := allSales.filter fun s => utcDayKey s.timestamp = date
      let cashSales :=
        (salesForSelectedDate.filter fun s => s.paymentMethod = PaymentMethod.Cash).foldl
          (fun acc s => acc + s.total) 0
      let totalWithdrawals := r.withdrawals.foldl (fun acc w => acc + w.amount) 0
      r.openingCash + cashSales - totalWithdrawals

/-- `SalesScreen.addToCart` (lines 37-47): increment an existing cart line
only while below the product's stock; otherwise push a fresh line with
quantity 1. -/
def addToCart (cart : List SaleItem) (product : Product) : List SaleItem :=
  match cart.find? (fun item => item.productId = product.id) with
  | some existingItem =>
      if existingItem.quantity < product.stock then
        cart.map fun item =>
          if item.productId = product.id then { item with quantity := item.quantity + 1 }
          else item
      else cart
  | none =>
      cart ++ [{ productId := product.id, productName := product.name,
                 quantity := 1, pricePerItem := product.price }]

/-- `SalesScreen.updateQuantity` (lines 49-61): clamp the requested quantity
to `[0, stock]` of the product found by id (no-op when the product is
missing), removing the line when the clamped quantity is 0. -/
def updateQuantity (products : List Product) (cart : List SaleItem)
    (productId : String) (newQuantity : Int) : List SaleItem :=
  match products.find? (fun p => p.id = productId) with
  | none => cart
  | some product =>
      let clampedQuantity := max 0 (min newQuantity product.stock)
      if clampedQuantity = 0 then
        cart.filter fun item => ¬ (item.productId = productId)
      else
        cart.map fun item =>
          if item.productId = productId then { item with quantity := clampedQuantity }
          else item

/-- One cart line is well formed against the product list: its product is
found by `products.find?` and its quantity lies in `[1, stock]`. -/
def itemWF (products : List Product) (item : SaleItem) : Prop :=
  match products.find? (fun p => p.id = item.productId) with
  | some p => 1 ≤ item.quantity ∧ item.quantity ≤ p.stock
  | none => False

instance (products : List Product) (item : SaleItem) :
    Decidable (itemWF products item) :=
  match h : products.find? (fun p => p.id = item.productId) with
  | some p =>
      decidable_of_iff (1 ≤ item.quantity ∧ item.quantity ≤ p.stock)
        (by simp [itemWF, h])
  | none => decidable_of_iff False (by simp [itemWF, h])

/-- Well-formedness of the sales-screen cart against the product list:
every line is well formed and no two lines share a product id. -/
def cartWF (products : List Product) (cart : List SaleItem) : Prop :=
  (∀ item ∈ cart, itemWF products item) ∧
  (cart.map fun item => item.productId).Nodup

instance (products : List Product) (cart : List SaleItem) :
    Decidable (cartWF products cart) := by
  unfold cartWF
  infer_instance

/-! ### Helper lemmas -/

theorem foldl_total (l : List Sale) (a : ℚ) :
    l.foldl (fun acc s => acc + s.total) a = a + (l.map fun s => s.total).sum := by
  induction l generalizing a with
  | nil => simp
  | cons s ss ih => simp [ih, add_assoc]

theorem foldl_subtotal (l : List SaleItem) (a : ℚ) :
    l.foldl (fun acc it => acc + it.pricePerItem * (it.quantity : ℚ)) a =
      a + (l.map fun it => it.pricePerItem * (it.quantity : ℚ)).sum := by
  induction l generalizing a with
  | nil => simp
  | cons x xs ih => simp [ih, add_assoc]

theorem subtotal_nonneg (l : List SaleItem)
    (h : ∀ it ∈ l, 0 ≤ it.pricePerItem ∧ 0 ≤ it.quantity) :
    0 ≤ l.foldl (fun acc it => acc + it.pricePerItem * (it.quantity : ℚ)) 0 := by
  rw [foldl_subtotal, zero_add]
  apply List.sum_nonneg
  intro x hx
  simp only [List.mem_map] at hx
  obtain ⟨it, hit, rfl⟩ := hx
  exact mul_nonneg (h it hit).1 (by exact_mod_cast (h it hit).2)

theorem cash_filter_fusion (tz : Int) (key : String) (sales : List Sale) :
    ((sales.filter fun s => localDayKey tz s.timestamp = key).filter fun s =>
        s.paymentMethod = PaymentMethod.Cash) =
      sales.filter fun s =>
        localDayKey tz s.timestamp = key ∧ s.paymentMethod = PaymentMethod.Cash := by
  induction sales with
  | nil => rfl
  | cons s ss ih =>
      by_cases h1 : localDayKey tz s.timestamp = key <;>
        by_cases h2 : s.paymentMethod = PaymentMethod.Cash <;>
          simp [h1, h2, ih]

/-! ### Claim theorems -/

/-- C1: `endDay` from an Open drawer stores `closingCash = openingCash +
Σ totals of Cash-method sales of the current local day key` (Pix excluded),
writes a `HistoricalReport` for today's key with that `openingCash` and
`closingCash` carrying forward any withdrawals already attached to that day,
sets `previousClosingCash` to the computed `closingCash`, and closes the
drawer with `openingCash` reset to 0. -/
theorem endDay_reconciles (tz now : Int) (drawer : CashDrawer) (sales : List Sale)
    (reports : Reports) (_hopen : drawer.isOpen = true) :
    (handleEndDay tz now drawer sales reports).1 =
      ⟨false, 0, drawer.openingCash + ((sales.filter fun s =>
          localDayKey tz s.timestamp = localDayKey tz now ∧
          s.paymentMethod = PaymentMethod.Cash).map fun s => s.total).sum⟩ ∧
    (handleEndDay tz now drawer sales reports).2 (localDayKey tz now) =
      some ⟨drawer.openingCash,
            drawer.openingCash + ((sales.filter fun s =>
                localDayKey tz s.timestamp = localDayKey tz now ∧
                s.paymentMethod = PaymentMethod.Cash).map fun s => s.total).sum,
            localDayKey tz now,
            (reports (localDayKey tz now)).elim [] fun r => r.withdrawals⟩ := by
  constructor
  · simp only [handleEndDay, cash_filter_fusion, foldl_total, zero_add]
  · simp only [handleEndDay, cash_filter_fusion, foldl_total, zero_add, if_pos]
    cases hr : reports (localDayKey tz now) <;> simp [hr]

/-- Witness for C1: the spec scenario — opening cash 50, one cash sale of
30 and one Pix sale of 20 on the current day; `endDay` closes at 80. -/
theorem endDay_reconciles_witness :
    (handleEndDay 0 0 ⟨true, 50, 0⟩
        [⟨"s1", [], 30, none, none, 0, 30, PaymentMethod.Cash, 0⟩,
         ⟨"s2", [], 20, none, none, 0, 20, PaymentMethod.Pix, 0⟩]
        (fun _ => none)).1 = ⟨false, 0, 80⟩ := by
  have h := endDay_reconciles 0 0 ⟨true, 50, 0⟩
    [⟨"s1", [], 30, none, none, 0, 30, PaymentMethod.Cash, 0⟩,
     ⟨"s2", [], 20, none, none, 0, 20, PaymentMethod.Pix, 0⟩]
    (fun _ => none) rfl
  rw [h.1]
  simp
  norm_num

/-- C4 (code evaluated at the failing input): finalizing a non-empty cart
with no discount entered makes `SalesScreen.handleFinalizeSale` pass
`undefined` as the discount, and `handleAddSale` then throws on
`discount.value`; the sale is not committed. -/
theorem finalize_without_discount_throws :
    runAddSale [⟨"p1", "A", 5, 10, Category.Alimentos⟩]
      [⟨"p1", "A", 1, 10⟩] PaymentMethod.Cash none 0 = Except.error () := by
  rfl

/-- C8 (code evaluated at the failing inputs): `startDay` on an already-Open
drawer overwrites `openingCash` (50 → 30), and `endDay` on an already-Closed
drawer re-runs the close, clobbering `previousClosingCash` (80 → 0) —
neither call is rejected as a no-op. -/
theorem wrongState_transitions_execute :
    handleStartDay ⟨true, 50, 0⟩ 30 = ⟨true, 30, 0⟩ ∧
    (handleEndDay 0 0 ⟨false, 0, 80⟩ [] fun _ => none).1 = ⟨false, 0, 0⟩ := by
  constructor
  · rfl
  · simp [handleEndDay]

/-- C9: recording a withdrawal appends exactly one new `Withdrawal` (id
`wd-<now>`, timestamp `now`, the given amount and reason) to the end of the
target day's report, creating a zeroed stub when the day has no report;
`date`, `openingCash` and `closingCash` are otherwise unchanged (in
particular `closingCash` is not decremented), and every other day's report
is untouched. -/
theorem addWithdrawal_frame (reports : Reports) (date : String) (amount : ℚ)
    (reason : String) (now : Int) :
    (∀ k, k ≠ date → handleAddWithdrawal reports date amount reason now k = reports k) ∧
    (∀ r, reports date = some r →
      handleAddWithdrawal reports date amount reason now date =
        some { r with withdrawals :=
          r.withdrawals ++ [⟨"wd-" ++ toString now, amount, reason, now⟩] }) ∧
    (reports date = none →
      handleAddWithdrawal reports date amount reason now date =
        some ⟨0, 0, date, [⟨"wd-" ++ toString now, amount, reason, now⟩]⟩) := by
  refine ⟨fun k hk => ?_, fun r hr => ?_, fun hr => ?_⟩
  · simp [handleAddWithdrawal, hk]
  · simp [handleAddWithdrawal, hr]
  · simp [handleAddWithdrawal, hr]

/-- Witness for C9: from an empty archive, a withdrawal on 2024-01-02
creates the stub report with the appended withdrawal and leaves 2024-01-03
without a report. -/
theorem addWithdrawal_frame_witness :
    handleAddWithdrawal (fun _ => none) "2024-01-02" 5 "troco" 7 "2024-01-03" = none ∧
    handleAddWithdrawal (fun _ => none) "2024-01-02" 5 "troco" 7 "2024-01-02" =
      some ⟨0, 0, "2024-01-02", [⟨"wd-7", 5, "troco", 7⟩]⟩ := by
  have h := addWithdrawal_frame (fun _ => none) "2024-01-02" 5 "troco" 7
  exact ⟨h.1 "2024-01-03" (by decide), h.2.2 rfl⟩



theorem handleAddSale_eq_some (products : List Product) (cartItems : List SaleItem)
    (pm : PaymentMethod) (discount : DiscountSpec) (now : Int)
    (hne : cartItems ≠ []) :
    handleAddSale products cartItems pm discount now =
      some (newSaleOf cartItems pm discount now,
            applyStockDeduction products cartItems) := by
  simp only [handleAddSale, if_neg hne]

theorem rawDiscountAmount_nonneg (subtotal : ℚ) (discount : DiscountSpec)
    (hsub : 0 ≤ subtotal) : 0 ≤ rawDiscountAmount subtotal discount := by
  unfold rawDiscountAmount
  cases discount.value with
  | none => exact le_refl 0
  | some v =>
      simp only
      by_cases hv : 0 < v
      · rw [if_pos hv]
        by_cases ht : discount.type = DiscountType.percentage
        · rw [if_pos ht]
          positivity
        · rw [if_neg ht]
          exact le_of_lt hv
      · rw [if_neg hv]

/-- C3: committing a sale updates each product matched by a cart item's
`productId` to `max 0 (stock − quantity)` (never negative), leaves every
product not referenced by the cart unchanged, and silently skips cart items
whose `productId` matches no product — the commit still succeeds. -/
theorem stock_deduction (products : List Product) (cartItems : List SaleItem)
    (pm : PaymentMethod) (discount : DiscountSpec) (now : Int)
    (hne : cartItems ≠ []) :
    ∃ sale ps, handleAddSale products cartItems pm discount now = some (sale, ps) ∧
      ps.length = products.length ∧
      ∀ i (hi : i < products.length) (hi2 : i < ps.length),
        (∀ item, cartItems.find? (fun ci => ci.productId = products[i].id) = some item →
          ps[i] = { products[i] with stock := max 0 (products[i].stock - item.quantity) } ∧
          0 ≤ ps[i].stock) ∧
        (cartItems.find? (fun ci => ci.productId = products[i].id) = none →
          ps[i] = products[i]) := by
  refine ⟨_, _, handleAddSale_eq_some products cartItems pm discount now hne,
    by simp [applyStockDeduction], ?_⟩
  intro i hi hi2
  simp only [applyStockDeduction, List.getElem_map]
  constructor
  · intro item hfind
    constructor
    · simp [hfind]
    · simp only [hfind]
      exact le_max_left 0 _
  · intro hfind
    simp only [hfind]

/-- Witness for C3: a cart taking 2 of product p1 (stock 5) and 9 of the
removed product p9 commits fine, p1's stock drops to 3, and p2 is
untouched. -/
theorem stock_deduction_witness :
    ∃ sale ps, handleAddSale
        [⟨"p1", "A", 5, 10, Category.Alimentos⟩, ⟨"p2", "B", 4, 3, Category.Loja⟩]
        [⟨"p1", "A", 2, 10⟩, ⟨"p9", "Gone", 9, 1⟩]
        PaymentMethod.Cash ⟨DiscountType.fixed, none⟩ 0 = some (sale, ps) ∧
      ps = [⟨"p1", "A", 3, 10, Category.Alimentos⟩, ⟨"p2", "B", 4, 3, Category.Loja⟩] := by
  obtain ⟨sale, ps, heq, -, -⟩ := stock_deduction
    [⟨"p1", "A", 5, 10, Category.Alimentos⟩, ⟨"p2", "B", 4, 3, Category.Loja⟩]
    [⟨"p1", "A", 2, 10⟩, ⟨"p9", "Gone", 9, 1⟩]
    PaymentMethod.Cash ⟨DiscountType.fixed, none⟩ 0 (by simp)
  refine ⟨sale, ps, heq, ?_⟩
  rw [handleAddSale_eq_some _ _ _ _ _ (by simp)] at heq
  simp only [Option.some.injEq, Prod.mk.injEq] at heq
  rw [← heq.2]
  decide

/-- C5: every committed sale satisfies `total = subtotal − discountAmount`,
`discountAmount ≥ 0`, and a Fixed-discount sale has
`discountAmount ≤ subtotal`. -/
theorem sale_totals (products : List Product) (cartItems : List SaleItem)
    (pm : PaymentMethod) (discount : DiscountSpec) (now : Int)
    (hne : cartItems ≠ [])
    (hitems : ∀ it ∈ cartItems, 0 ≤ it.pricePerItem ∧ 0 ≤ it.quantity) :
    ∃ sale ps, handleAddSale products cartItems pm discount now = some (sale, ps) ∧
      sale.total = sale.subtotal - sale.discountAmount ∧
      0 ≤ sale.discountAmount ∧
      (sale.discountType = some DiscountType.fixed →
        sale.discountAmount ≤ sale.subtotal) := by
  have hsub : 0 ≤ subtotalOf cartItems := subtotal_nonneg cartItems hitems
  refine ⟨_, _, handleAddSale_eq_some products cartItems pm discount now hne,
    rfl, ?_, fun _ => min_le_left _ _⟩
  exact le_min hsub (rawDiscountAmount_nonneg _ _ hsub)

/-- Witness for C5: a 2 × 5.00 cart with a fixed discount of 15.00 commits
with the claimed total/discount relations. -/
theorem sale_totals_witness :
    ∃ sale ps, handleAddSale [] [⟨"p1", "A", 2, 5⟩] PaymentMethod.Cash
        ⟨DiscountType.fixed, some 15⟩ 0 = some (sale, ps) ∧
      sale.total = sale.subtotal - sale.discountAmount ∧
      0 ≤ sale.discountAmount ∧
      (sale.discountType = some DiscountType.fixed →
        sale.discountAmount ≤ sale.subtotal) :=
  sale_totals [] [⟨"p1", "A", 2, 5⟩] PaymentMethod.Cash ⟨DiscountType.fixed, some 15⟩ 0
    (by simp) (by norm_num)

/-- C6 counterexample: a 1 × 10.00 cart with a 200% percentage discount gets
`discountAmount = 10` — clamped to the subtotal — not
`subtotal × (value / 100) = 20`, refuting the claim that percentage
discounts are applied unclamped for `value > 100`. -/
theorem percentage_discount_clamp_cex :
    handleAddSale [] [⟨"p1", "A", 1, 10⟩] PaymentMethod.Cash
        ⟨DiscountType.percentage, some 200⟩ 0 =
      some (⟨"sale-0", [⟨"p1", "A", 1, 10⟩], 10, some DiscountType.percentage, some 200,
              10, 0, PaymentMethod.Cash, 0⟩, []) ∧
    (10 : ℚ) ≠ 10 * (200 / 100) := by
  constructor
  · rw [handleAddSale_eq_some _ _ _ _ _ (by simp)]
    simp only [newSaleOf, subtotalOf, rawDiscountAmount, saleDiscountType,
      applyStockDeduction, Option.some.injEq, Prod.mk.injEq]
    norm_num [min_def]
    decide
  · norm_num

/-- C6 amended: for a percentage discount with value `v > 0` the committed
sale's `discountAmount` is `min subtotal (subtotal × v / 100)` — the same
clamp a Fixed discount gets — which coincides with `subtotal × (v / 100)`
exactly when `v ≤ 100` (for a nonnegative subtotal). -/
theorem percentage_discount_clamped (products : List Product)
    (cartItems : List SaleItem) (pm : PaymentMethod) (now : Int) (v : ℚ)
    (hne : cartItems ≠ []) (hv : 0 < v) :
    ∃ sale ps, handleAddSale products cartItems pm
        ⟨DiscountType.percentage, some v⟩ now = some (sale, ps) ∧
      sale.discountAmount = min sale.subtotal (sale.subtotal * v / 100) ∧
      (v ≤ 100 → 0 ≤ sale.subtotal →
        sale.discountAmount = sale.subtotal * (v / 100)) := by
  have hraw : rawDiscountAmount (subtotalOf cartItems)
      ⟨DiscountType.percentage, some v⟩ = subtotalOf cartItems * v / 100 := by
    simp [rawDiscountAmount, hv]
  refine ⟨_, _,
    handleAddSale_eq_some products cartItems pm ⟨DiscountType.percentage, some v⟩ now hne,
    ?_, ?_⟩
  · show min (subtotalOf cartItems)
        (rawDiscountAmount (subtotalOf cartItems) ⟨DiscountType.percentage, some v⟩) =
      min (subtotalOf cartItems) (subtotalOf cartItems * v / 100)
    rw [hraw]
  · intro hv100 hsub
    show min (subtotalOf cartItems)
        (rawDiscountAmount (subtotalOf cartItems) ⟨DiscountType.percentage, some v⟩) =
      subtotalOf cartItems * (v / 100)
    rw [hraw, mul_div_assoc]
    refine min_eq_right ?_
    have hs : 0 ≤ subtotalOf cartItems := hsub
    have hle : v / 100 ≤ 1 := by linarith
    calc subtotalOf cartItems * (v / 100) ≤ subtotalOf cartItems * 1 :=
          mul_le_mul_of_nonneg_left hle hs
      _ = subtotalOf cartItems := mul_one _

/-- Witness for C6 amended: a 1 × 10.00 cart with a 50% discount. -/
theorem percentage_discount_clamped_witness :
    ∃ sale ps, handleAddSale [] [⟨"p1", "A", 1, 10⟩] PaymentMethod.Cash
        ⟨DiscountType.percentage, some 50⟩ 0 = some (sale, ps) ∧
      sale.discountAmount = min sale.subtotal (sale.subtotal * 50 / 100) ∧
      ((50 : ℚ) ≤ 100 → 0 ≤ sale.subtotal →
        sale.discountAmount = sale.subtotal * (50 / 100)) :=
  percentage_discount_clamped [] [⟨"p1", "A", 1, 10⟩] PaymentMethod.Cash 0 50
    (by simp) (by norm_num)

/-- C2 counterexample: with zone offset UTC−3 (Brazil), the instants
2024-01-02T02:30Z and 2024-01-01T13:00Z fall in the SAME local calendar day
(2024-01-01, keys equal under the engine's `localDayKey`), yet the UTC
day-key computation used by `PreviousReport.tsx` for sale attribution and
report lookup gives them DIFFERENT keys — so not every day-key computation
derives the key from the local calendar date. -/
theorem utc_key_splits_local_day :
    localDayKey (-10800) (19724 * 86400 + 9000) =
      localDayKey (-10800) (19723 * 86400 + 46800) ∧
    utcDayKey (19724 * 86400 + 9000) ≠ utcDayKey (19723 * 86400 + 46800) := by
  decide

/-- C2 amended: the ENGINE's `localDayKey` (used by `handleEndDay` for sale
attribution, report writing, and by the App for withdrawal attribution)
derives the key from the local calendar date: any two instants in the same
local calendar day get equal keys, and 23:59:59 local vs 00:00:01 local the
next day get different keys even though their UTC dates coincide; however,
`PreviousReport.tsx` derives its keys from the UTC date slice instead. -/
theorem localDayKey_local_semantics :
    (∀ tz t1 t2, Int.fdiv (t1 + tz) 86400 = Int.fdiv (t2 + tz) 86400 →
      localDayKey tz t1 = localDayKey tz t2) ∧
    (localDayKey (-10800) (19724 * 86400 + 10799) ≠
        localDayKey (-10800) (19724 * 86400 + 10801) ∧
      utcDayKey (19724 * 86400 + 10799) = utcDayKey (19724 * 86400 + 10801)) := by
  constructor
  · intro tz t1 t2 h
    unfold localDayKey
    rw [h]
  · decide

/-- Witness for C2 amended: two instants 100s and 50000s into 1970-01-01
get the same local key. -/
theorem localDayKey_local_semantics_witness :
    localDayKey 0 100 = localDayKey 0 50000 :=
  localDayKey_local_semantics.1 0 100 50000 (by decide)

/-- C7 counterexample: the engine's `handleAddWithdrawal` performs no
validation: a withdrawal of −5 with an empty reason on a day with no report
(available cash 0) is recorded anyway — the report archive changes instead
of the call failing. -/
theorem withdrawal_not_rejected_cex :
    handleAddWithdrawal (fun _ => none) "2024-01-01" (-5) "" 0 "2024-01-01" =
      some ⟨0, 0, "2024-01-01", [⟨"wd-0", -5, "", 0⟩]⟩ ∧
    handleAddWithdrawal (fun _ => none) "2024-01-01" (-5) "" 0 "2024-01-01" ≠
      (fun _ => none : Reports) "2024-01-01" := by
  constructor
  · decide
  · decide

/-- C7 amended: the rejection happens in the WithdrawalModal UI layer, not
the engine: `handleConfirm` refuses (never invoking the engine, so no state
changes) whenever the amount is not a number, is ≤ 0, exceeds the
`maxAmount = openingCash + cashSalesForDay − Σ priorWithdrawalsForDay`
supplied by `PreviousReport`, or the trimmed reason is empty — and passes
the withdrawal through otherwise; the engine's `handleAddWithdrawal` itself
records unconditionally. -/
theorem withdrawal_validation_ui (reports : Reports) (allSales : List Sale)
    (date : String) (amt : ℚ) (reason : String) (now : Int) :
    (amt ≤ 0 →
      handleConfirm (some amt) reason (maxAmountFor reports allSales date) = none) ∧
    (maxAmountFor reports allSales date < amt →
      handleConfirm (some amt) reason (maxAmountFor reports allSales date) = none) ∧
    (reason.trim = "" →
      handleConfirm (some amt) reason (maxAmountFor reports allSales date) = none) ∧
    handleConfirm none reason (maxAmountFor reports allSales date) = none ∧
    (0 < amt → amt ≤ maxAmountFor reports allSales date → reason.trim ≠ "" →
      handleConfirm (some amt) reason (maxAmountFor reports allSales date) =
        some (amt, reason.trim)) ∧
    handleAddWithdrawal reports date amt reason now date ≠ none := by
  refine ⟨?_, ?_, ?_, rfl, ?_, ?_⟩
  · intro h
    simp [handleConfirm, h]
  · intro h
    by_cases h0 : amt ≤ 0 <;> simp [handleConfirm, h0, h]
  · intro h
    by_cases h0 : amt ≤ 0
    · simp [handleConfirm, h0]
    · by_cases h1 : maxAmountFor reports allSales date < amt <;>
        simp [handleConfirm, h0, h1, h]
  · intro h1 h2 h3
    simp [handleConfirm, not_le.mpr h1, not_lt.mpr h2, h3]
  · simp [handleAddWithdrawal]

/-- Witness for C7 amended: with no report for the day (available cash 0),
the modal rejects a −1 amount and rejects an amount of 5 > 0 available. -/
theorem withdrawal_validation_ui_witness :
    handleConfirm (some (-1)) "x" (maxAmountFor (fun _ => none) [] "2024-01-01") =
      none ∧
    handleConfirm (some 5) "x" (maxAmountFor (fun _ => none) [] "2024-01-01") =
      none := by
  have h1 := withdrawal_validation_ui (fun _ => none) [] "2024-01-01" (-1) "x" 0
  have h2 := withdrawal_validation_ui (fun _ => none) [] "2024-01-01" 5 "x" 0
  exact ⟨h1.1 (by norm_num), h2.2.1 (by norm_num [maxAmountFor])⟩

theorem itemWF_iff (products : List Product) (item : SaleItem) (p : Product)
    (hfp : products.find? (fun q => q.id = item.productId) = some p) :
    itemWF products item ↔ (1 ≤ item.quantity ∧ item.quantity ≤ p.stock) := by
  unfold itemWF
  rw [hfp]

theorem map_productId_update (cart : List SaleItem) (g : SaleItem → SaleItem)
    (hg : ∀ it, (g it).productId = it.productId) :
    (cart.map g).map (fun it => it.productId) = cart.map fun it => it.productId := by
  rw [List.map_map]
  simp [Function.comp, hg]

/-- C10: the sales-screen cart invariant — every line has quantity in
`[1, stock]` for the product found by id and lines have distinct product
ids — is preserved by `addToCart` (for a product that is in the list with
stock ≥ 1: an existing line is only incremented while below stock, a fresh
line starts at 1) and by `updateQuantity` (the requested quantity is
clamped to `[0, stock]` and the line is removed at 0). -/
theorem cart_invariant (products : List Product) (cart : List SaleItem)
    (product : Product) (productId : String) (newQuantity : Int)
    (hwf : cartWF products cart) :
    (products.find? (fun p => p.id = product.id) = some product →
      1 ≤ product.stock → cartWF products (addToCart cart product)) ∧
    cartWF products (updateQuantity products cart productId newQuantity) := by
  obtain ⟨hitems, hnodup⟩ := hwf
  constructor
  · intro hfp hstock
    unfold addToCart
    cases hfind : cart.find? (fun item => item.productId = product.id) with
    | none =>
        dsimp only
        constructor
        · intro item hmem
          rcases List.mem_append.mp hmem with hmem | hmem
          · exact hitems item hmem
          · have : item = ⟨product.id, product.name, 1, product.price⟩ := by
              simpa using hmem
            subst this
            exact (itemWF_iff products _ product hfp).mpr ⟨le_refl 1, hstock⟩
        · rw [List.map_append]
          refine hnodup.append (List.nodup_singleton _) ?_
          rw [List.map_cons, List.map_nil, List.disjoint_singleton]
          intro hmem
          obtain ⟨it, hit, hpid⟩ := List.mem_map.mp hmem
          have := List.find?_eq_none.mp hfind it hit
          simp at this
          exact this hpid
    | some existingItem =>
        dsimp only
        have hex_mem : existingItem ∈ cart := List.mem_of_find?_eq_some hfind
        have hex_pid : existingItem.productId = product.id := by
          have := List.find?_some hfind
          simpa using this
        by_cases hlt : existingItem.quantity < product.stock
        · rw [if_pos hlt]
          constructor
          · intro item hmem
            obtain ⟨it0, hit0, rfl⟩ := List.mem_map.mp hmem
            by_cases hp : it0.productId = product.id
            · rw [if_pos hp]
              have hit0eq : it0 = existingItem :=
                List.inj_on_of_nodup_map hnodup hit0 hex_mem (by rw [hp, hex_pid])
              have hfp0 : products.find? (fun q => q.id = it0.productId) = some product := by
                rw [hp]
                exact hfp
              have hbounds := (itemWF_iff products it0 product hfp0).mp (hitems it0 hit0)
              refine (itemWF_iff products _ product ?_).mpr ⟨?_, ?_⟩
              · show products.find? (fun q => q.id = it0.productId) = some product
                exact hfp0
              · show (1 : Int) ≤ it0.quantity + 1
                omega
              · show it0.quantity + 1 ≤ product.stock
                have : it0.quantity < product.stock := hit0eq ▸ hlt
                omega
            · rw [if_neg hp]
              exact hitems it0 hit0
          · rw [map_productId_update]
            · exact hnodup
            · intro it
              by_cases hp : it.productId = product.id
              · rw [if_pos hp]
              · rw [if_neg hp]
        · rw [if_neg hlt]
          exact ⟨hitems, hnodup⟩
  · unfold updateQuantity
    cases hfp2 : products.find? (fun p => p.id = productId) with
    | none => exact ⟨hitems, hnodup⟩
    | some prod =>
        dsimp only
        by_cases hc : max 0 (min newQuantity prod.stock) = 0
        · rw [if_pos hc]
          constructor
          · intro item hmem
            exact hitems item (List.mem_of_mem_filter hmem)
          · exact hnodup.sublist ((List.filter_sublist cart).map _)
        · rw [if_neg hc]
          constructor
          · intro item hmem
            obtain ⟨it0, hit0, rfl⟩ := List.mem_map.mp hmem
            by_cases hp : it0.productId = productId
            · rw [if_pos hp]
              refine (itemWF_iff products _ prod ?_).mpr ⟨?_, ?_⟩
              · show products.find? (fun q => q.id = it0.productId) = some prod
                rw [hp]
                exact hfp2
              · show (1 : Int) ≤ max 0 (min newQuantity prod.stock)
                omega
              · show max 0 (min newQuantity prod.stock) ≤ prod.stock
                omega
            · rw [if_neg hp]
              exact hitems it0 hit0
          · rw [map_productId_update]
            · exact hnodup
            · intro it
              by_cases hp : it.productId = productId
              · rw [if_pos hp]
              · rw [if_neg hp]

/-- Witness for C10: a one-line cart (2 of p1, stock 5) stays well formed
after adding p1 again and after setting the quantity to 9 (clamped to 5). -/
theorem cart_invariant_witness :
    cartWF [⟨"p1", "A", 5, 10, Category.Alimentos⟩]
      (addToCart [⟨"p1", "A", 2, 10⟩] ⟨"p1", "A", 5, 10, Category.Alimentos⟩) ∧
    cartWF [⟨"p1", "A", 5, 10, Category.Alimentos⟩]
      (updateQuantity [⟨"p1", "A", 5, 10, Category.Alimentos⟩]
        [⟨"p1", "A", 2, 10⟩] "p1" 9) := by
  have h := cart_invariant [⟨"p1", "A", 5, 10, Category.Alimentos⟩]
    [⟨"p1", "A", 2, 10⟩] ⟨"p1", "A", 5, 10, Category.Alimentos⟩ "p1" 9 (by decide)
  exact ⟨h.1 (by decide) (by decide), h.2⟩
